import Mathlib

/-!
Verification of the booking concurrency-control core of the
ConferenceRoomBooking backend.

The embedding models the pure temporal-rule functions of `src/utils/time.ts`,
the booking/invitation repositories (SQL semantics over an explicit in-memory
table state) and the service layer of `bookings.service.ts` and
`invitations.service.ts`.  Time instants are modelled as epoch milliseconds
(`JSDate.ms`, the value of `Date.prototype.getTime`), and the local wall-clock
components `getHours`/`getMinutes` are derived from the epoch value plus a
fixed timezone offset `tz` in milliseconds, mirroring the process-local
timezone of the JavaScript runtime.
-/

namespace Booking

/-- A JavaScript `Date`: an instant, identified by its epoch milliseconds. -/
structure JSDate where
  ms : Int
deriving DecidableEq, Repr

/-- Embedding of `date.getHours()` under a process timezone offset of `tz` milliseconds:
the local wall-clock hour in 0..23. -/
def getHours (tz : Int) (d : JSDate) : Int :=
  ((d.ms + tz).fdiv 3600000) % 24

/-- Embedding of `date.getMinutes()` under a process timezone offset of `tz` milliseconds:
the local wall-clock minute in 0..59. -/
def getMinutes (tz : Int) (d : JSDate) : Int :=
  ((d.ms + tz).fdiv 60000) % 60

/-- Constant `BUSINESS_HOURS.START` from `src/utils/time.ts`. -/
def BUSINESS_HOURS_START : Int := 9

/-- Constant `BUSINESS_HOURS.END` from `src/utils/time.ts`. -/
def BUSINESS_HOURS_END : Int := 17

/-- Constant `BOOKING_DURATION.MIN_MINUTES` from `src/utils/time.ts`. -/
def MIN_MINUTES : Int := 30

/-- Constant `BOOKING_DURATION.MAX_MINUTES` from `src/utils/time.ts`. -/
def MAX_MINUTES : Int := 240

/-- Embedding of `validateBusinessHours(startTime, endTime)` from `src/utils/time.ts`:
reads only the local hour/minute components of the two instants.
Start must have hour ≥ 9; end is rejected when its hour exceeds 17 or its
hour equals 17 with a nonzero minute. -/
def validateBusinessHours (tz : Int) (startTime endTime : JSDate) : Bool :=
  let startHour := getHours tz startTime
  let endHour := getHours tz endTime
  let endMinute := getMinutes tz endTime
  if startHour < BUSINESS_HOURS_START then
    false
  else if endHour > BUSINESS_HOURS_END ∨
      (endHour = BUSINESS_HOURS_END ∧ endMinute > 0) then
    false
  else
    true

/-- Embedding of `getDurationMinutes(startTime, endTime)` from `src/utils/time.ts`:
`Math.floor((end.getTime() - start.getTime()) / 60000)`, i.e. floor
division of the millisecond difference by 60000. -/
def getDurationMinutes (startTime endTime : JSDate) : Int :=
  (endTime.ms - startTime.ms).fdiv 60000

/-- Embedding of `validateDuration(startTime, endTime)` from `src/utils/time.ts`. -/
def validateDuration (startTime endTime : JSDate) : Bool :=
  let duration := getDurationMinutes startTime endTime
  MIN_MINUTES ≤ duration ∧ duration ≤ MAX_MINUTES

/-- Booking status enum (`bookingStatusSchema` in
`src/domain/zod/bookings.schema.ts` and the `bookings.status` column). -/
inductive BStatus where
  | pending
  | confirmed
  | cancelled
  | completed
deriving DecidableEq, Repr

/-- Stored invitation status: the `booking_invitations.status` column is
`ENUM('pending', 'accepted', 'declined')` in `setup_database.sql`, so the
read-time `expired` value can never be persisted. -/
inductive InvStatus where
  | pending
  | accepted
  | declined
deriving DecidableEq, Repr

/-- The derived `display_status` computed by
`InvitationsRepository.getInviteesByBooking`. -/
inductive DisplayStatus where
  | pending
  | accepted
  | declined
  | expired
deriving DecidableEq, Repr

/-- Embedding of a stored invitation status into the display domain. -/
def InvStatus.display : InvStatus → DisplayStatus
  | .pending => .pending
  | .accepted => .accepted
  | .declined => .declined

/-- A row of the `bookings` table. -/
structure BookingRow where
  id : Nat
  room_id : Nat
  user_id : Nat
  title : String
  description : Option String
  start_time : JSDate
  end_time : JSDate
  status : BStatus
deriving DecidableEq, Repr

/-- A row of the `booking_invitations` table (the surrogate `id` column is
omitted; rows are identified by the unique key `(booking_id, user_id)`). -/
structure InvitationRow where
  booking_id : Nat
  user_id : Nat
  status : InvStatus
  invited_at : JSDate
  responded_at : Option JSDate
deriving DecidableEq, Repr

/-- The database state visible to the booking/invitation core: the
`bookings` and `booking_invitations` tables, the id sets of existing rooms
and users (the core only consults existence), and the `bookings`
AUTO_INCREMENT counter. -/
structure DB where
  bookings : List BookingRow
  invitations : List InvitationRow
  rooms : List Nat
  users : List Nat
  nextBookingId : Nat
deriving DecidableEq, Repr

/-- The projection of `InvitationsRepository.getInviteesByBooking`'s result
rows that the core manipulates (user email/name display fields are
omitted). -/
structure InvitationWithUser where
  booking_id : Nat
  user_id : Nat
  status : InvStatus
  invited_at : JSDate
  responded_at : Option JSDate
  start_time : JSDate
  display_status : DisplayStatus
deriving DecidableEq, Repr

/-- Embedding of `BookingsRepository.findById`: `SELECT ... FROM bookings b INNER JOIN
rooms r ON b.room_id = r.id WHERE b.id = ?` — returns the first (unique)
row whose id matches, provided its room exists. -/
def findById (db : DB) (bookingId : Nat) : Option BookingRow :=
  (db.bookings.find? (fun b => b.id == bookingId)).filter
    (fun b => db.rooms.contains b.room_id)

/-- Embedding of `BookingsRepository.findOverlapping`: counts bookings of the room with
status `confirmed` or `pending`, `start_time < ?` (the candidate end),
`end_time > ?` (the candidate start), and — when an exclusion id is given —
`id != ?`.  The `FOR UPDATE` locking clause has no effect on the returned
rows. -/
def findOverlapping (db : DB) (roomId : Nat) (startTime endTime : JSDate)
    (excludeBookingId : Option Nat) : Nat :=
  (db.bookings.filter (fun b =>
    b.room_id == roomId &&
    (b.status == BStatus.confirmed || b.status == BStatus.pending) &&
    b.start_time.ms < endTime.ms &&
    b.end_time.ms > startTime.ms &&
    (match excludeBookingId with
     | some i => b.id != i
     | none => true))).length

/-- Embedding of `BookingsRepository.findByUserId` restricted to the `status` filter
(pagination and `ORDER BY` are not modelled; the claim under study concerns
membership).  SQL: `WHERE b.user_id = ? OR bi.user_id = ?` over a
`LEFT JOIN booking_invitations`, to which the optional filter appends
` AND b.status = ?`; by SQL operator precedence the appended conjunct
binds to the invitee disjunct only. -/
def findByUserId (db : DB) (userId : Nat) (statusFilter : Option BStatus) :
    List BookingRow :=
  db.bookings.filter (fun b =>
    db.rooms.contains b.room_id &&
    (b.user_id == userId ||
     db.invitations.any (fun i =>
       i.booking_id == b.id && i.user_id == userId &&
       (match statusFilter with
        | some st => b.status == st
        | none => true))))

/-- Input shape of `BookingsService.createBooking`
(`CreateBookingInput`). -/
structure CreateBookingInput where
  room_id : Nat
  user_id : Nat
  title : String
  description : Option String
  start_time : JSDate
  end_time : JSDate
deriving DecidableEq, Repr

/-- Input shape of `BookingsService.updateBooking` (`UpdateBookingInput`):
every field optional. -/
structure UpdateBookingInput where
  room_id : Option Nat := none
  title : Option String := none
  description : Option String := none
  start_time : Option JSDate := none
  end_time : Option JSDate := none
  status : Option BStatus := none
deriving DecidableEq, Repr

/-- The dynamic `SET` clause of `BookingsRepository.update`: each provided
field overwrites the stored one. -/
def applyUpdate (data : UpdateBookingInput) (b : BookingRow) : BookingRow :=
  { b with
    room_id := data.room_id.getD b.room_id
    title := data.title.getD b.title
    description := match data.description with
      | some d => some d
      | none => b.description
    start_time := data.start_time.getD b.start_time
    end_time := data.end_time.getD b.end_time
    status := data.status.getD b.status }

/-- Embedding of `BookingsRepository.update`: `UPDATE bookings SET ... WHERE id = ?`. -/
def repoUpdate (db : DB) (bookingId : Nat) (data : UpdateBookingInput) : DB :=
  { db with bookings := db.bookings.map (fun b =>
      if b.id == bookingId then applyUpdate data b else b) }

/-- Embedding of `BookingsRepository.cancel`: `UPDATE bookings SET status = 'cancelled'
WHERE id = ?`; the boolean is `affectedRows > 0` (MySQL counts changed
rows, so a row already cancelled does not count). -/
def repoCancel (db : DB) (bookingId : Nat) : Bool × DB :=
  (db.bookings.any (fun b =>
      b.id == bookingId && b.status != BStatus.cancelled),
   { db with bookings := db.bookings.map (fun b =>
       if b.id == bookingId then { b with status := BStatus.cancelled }
       else b) })

/-- One `(booking_id, user_id)` value row of the bulk
`INSERT ... ON DUPLICATE KEY UPDATE invited_at = CURRENT_TIMESTAMP,
status = 'pending'` in `InvitationsRepository.addInvitees`: if the unique
key `(booking_id, user_id)` already exists the row's status is reset to
`pending` and its `invited_at` refreshed (its `responded_at` is left as
is); otherwise a fresh `pending` row is inserted. -/
def upsertInvitee (invs : List InvitationRow) (bookingId userId : Nat)
    (now : JSDate) : List InvitationRow :=
  if invs.any (fun i => i.booking_id == bookingId && i.user_id == userId) then
    invs.map (fun i =>
      if i.booking_id == bookingId && i.user_id == userId then
        { i with status := InvStatus.pending, invited_at := now }
      else i)
  else
    invs ++ [{ booking_id := bookingId, user_id := userId,
               status := InvStatus.pending, invited_at := now,
               responded_at := none }]

/-- Embedding of `InvitationsRepository.addInvitees`: the bulk upsert, processed value
row by value row. -/
def repoAddInvitees (invs : List InvitationRow) (bookingId : Nat)
    (userIds : List Nat) (now : JSDate) : List InvitationRow :=
  userIds.foldl (fun acc uid => upsertInvitee acc bookingId uid now) invs

/-- Embedding of `InvitationsRepository.isUserInvited`: whether a row for the
`(booking_id, user_id)` pair exists. -/
def isUserInvited (db : DB) (bookingId userId : Nat) : Bool :=
  db.invitations.any (fun i =>
    i.booking_id == bookingId && i.user_id == userId)

/-- Embedding of `InvitationsRepository.updateStatus`: `UPDATE booking_invitations SET
status = ?, responded_at = CURRENT_TIMESTAMP WHERE booking_id = ? AND
user_id = ?`. -/
def repoUpdateStatus (invs : List InvitationRow) (bookingId userId : Nat)
    (status : InvStatus) (now : JSDate) : List InvitationRow :=
  invs.map (fun i =>
    if i.booking_id == bookingId && i.user_id == userId then
      { i with status := status, responded_at := some now }
    else i)

/-- Embedding of `InvitationsRepository.getInviteesByBooking` (the `ORDER BY
invited_at DESC` is not modelled): joins each invitation row of the booking
with the `users` and `bookings` tables and computes
`display_status = CASE WHEN b.start_time <= NOW() AND bi.status = 'pending'
THEN 'expired' ELSE bi.status END`. -/
def getInviteesByBooking (db : DB) (bookingId : Nat) (now : JSDate) :
    List InvitationWithUser :=
  (db.invitations.filter (fun i => i.booking_id == bookingId)).filterMap
    (fun i =>
      if db.users.contains i.user_id then
        (db.bookings.find? (fun b => b.id == i.booking_id)).map (fun b =>
          { booking_id := i.booking_id, user_id := i.user_id,
            status := i.status, invited_at := i.invited_at,
            responded_at := i.responded_at, start_time := b.start_time,
            display_status :=
              if b.start_time.ms ≤ now.ms ∧ i.status = InvStatus.pending
              then DisplayStatus.expired
              else i.status.display })
      else none)

/-- The typed error taxonomy of `src/utils/httpErrors.ts` as raised by the
booking/invitation services: `BadRequestError` (400), `NotFoundError`
(404), `ConflictError` (409), `ForbiddenError` (403). -/
inductive HttpErr where
  | badRequest
  | notFound
  | conflict
  | forbidden
deriving DecidableEq, Repr

/-- Embedding of `BookingsService.validateBookingTimes`: end must be strictly after
start (`Date` comparison, i.e. epoch milliseconds), then business hours,
then duration; each failure raises `BadRequestError`. -/
def validateBookingTimes (tz : Int) (startTime endTime : JSDate) :
    Option HttpErr :=
  if endTime.ms ≤ startTime.ms then some HttpErr.badRequest
  else if ¬ validateBusinessHours tz startTime endTime then
    some HttpErr.badRequest
  else if ¬ validateDuration startTime endTime then some HttpErr.badRequest
  else none

/-- Embedding of `BookingsService.createBooking`.  The pair's second component is the
database state when the call returns; every raised error precedes the
insert, so an error leaves the state untouched (which also agrees with the
rollback performed by `withTransaction`). -/
def createBooking (tz : Int) (db : DB) (data : CreateBookingInput) :
    Except HttpErr BookingRow × DB :=
  match validateBookingTimes tz data.start_time data.end_time with
  | some e => (Except.error e, db)
  | none =>
    if ¬ db.rooms.contains data.room_id then (Except.error HttpErr.notFound, db)
    else if ¬ db.users.contains data.user_id then
      (Except.error HttpErr.notFound, db)
    else if 0 < findOverlapping db data.room_id data.start_time data.end_time
        none then
      (Except.error HttpErr.conflict, db)
    else
      let row : BookingRow :=
        { id := db.nextBookingId, room_id := data.room_id,
          user_id := data.user_id, title := data.title,
          description := data.description, start_time := data.start_time,
          end_time := data.end_time, status := BStatus.confirmed }
      (Except.ok row,
       { db with bookings := db.bookings ++ [row],
                 nextBookingId := db.nextBookingId + 1 })

/-- Embedding of `BookingsService.updateBooking`: fetch, refuse cancelled, overlay the
provided fields to obtain the effective room/start/end/status, re-validate
times when start or end is provided, check the new room exists when the
room changes, re-run the overlap check (excluding this booking) when room,
start, end is provided or the effective status is active, then apply the
update.  All errors are raised before the write. -/
def updateBooking (tz : Int) (db : DB) (bookingId : Nat)
    (data : UpdateBookingInput) : Except HttpErr BookingRow × DB :=
  match findById db bookingId with
  | none => (Except.error HttpErr.notFound, db)
  | some currentBooking =>
    if currentBooking.status = BStatus.cancelled then
      (Except.error HttpErr.badRequest, db)
    else
      let finalRoomId := data.room_id.getD currentBooking.room_id
      let finalStartTime := data.start_time.getD currentBooking.start_time
      let finalEndTime := data.end_time.getD currentBooking.end_time
      let finalStatus := data.status.getD currentBooking.status
      let timeErr : Option HttpErr :=
        if data.start_time.isSome ∨ data.end_time.isSome then
          validateBookingTimes tz finalStartTime finalEndTime
        else none
      match timeErr with
      | some e => (Except.error e, db)
      | none =>
        if (match data.room_id with
            | some r => r != currentBooking.room_id && ! db.rooms.contains r
            | none => false) then
          (Except.error HttpErr.notFound, db)
        else
          let needsOverlapCheck :=
            data.room_id.isSome ∨ data.start_time.isSome ∨
            data.end_time.isSome ∨ finalStatus = BStatus.confirmed ∨
            finalStatus = BStatus.pending
          if needsOverlapCheck ∧
              0 < findOverlapping db finalRoomId finalStartTime finalEndTime
                (some bookingId) then
            (Except.error HttpErr.conflict, db)
          else
            let db' := repoUpdate db bookingId data
            match findById db' bookingId with
            | some updated => (Except.ok updated, db')
            | none => (Except.error HttpErr.notFound, db)

/-- Embedding of `BookingsService.cancelBooking`: fetch (`NotFound` if missing), no-op
success when already cancelled, otherwise set the status to `cancelled`. -/
def cancelBooking (db : DB) (bookingId : Nat) : Except HttpErr Unit × DB :=
  match findById db bookingId with
  | none => (Except.error HttpErr.notFound, db)
  | some booking =>
    if booking.status = BStatus.cancelled then (Except.ok (), db)
    else
      let r := repoCancel db bookingId
      if r.1 then (Except.ok (), r.2)
      else (Except.error HttpErr.notFound, db)

/-- Embedding of `BookingsService.getUserBookings` restricted to the status filter:
verify the user exists, then delegate to `findByUserId`. -/
def getUserBookings (db : DB) (userId : Nat)
    (statusFilter : Option BStatus) :
    Except HttpErr (List BookingRow) :=
  if ¬ db.users.contains userId then Except.error HttpErr.notFound
  else Except.ok (findByUserId db userId statusFilter)

/-- The invitee-id filtering loop of `InvitationsService.addInvitees`:
ids equal to the requester are skipped, and only ids resolving to existing
users survive. -/
def survivingInvitees (db : DB) (requestingUserId : Nat)
    (userIds : List Nat) : List Nat :=
  userIds.filter (fun uid =>
    uid ≠ requestingUserId && db.users.contains uid)

/-- Embedding of `InvitationsService.addInvitees`: verify the booking exists and the
requester owns it, keep only invitee ids that are not the requester and
resolve to existing users, fail when none survive, bulk-upsert the
survivors, and return the refreshed invitee list.  Post-commit e-mail
notification is a logged, non-state side effect and is not modelled. -/
def addInvitees (db : DB) (bookingId : Nat) (userIds : List Nat)
    (requestingUserId : Nat) (now : JSDate) :
    Except HttpErr (List InvitationWithUser) × DB :=
  match findById db bookingId with
  | none => (Except.error HttpErr.notFound, db)
  | some booking =>
    if booking.user_id ≠ requestingUserId then
      (Except.error HttpErr.forbidden, db)
    else
      let validUserIds := survivingInvitees db requestingUserId userIds
      if validUserIds.isEmpty then (Except.error HttpErr.badRequest, db)
      else
        let invs' := repoAddInvitees db.invitations bookingId validUserIds now
        let db' := { db with invitations := invs' }
        (Except.ok (getInviteesByBooking db' bookingId now), db')

/-- The decision argument of `InvitationsService.respondToInvitation`
(`'accepted' | 'declined'`). -/
inductive Decision where
  | accepted
  | declined
deriving DecidableEq, Repr

/-- The stored status written for a decision. -/
def Decision.toStatus : Decision → InvStatus
  | .accepted => InvStatus.accepted
  | .declined => InvStatus.declined

/-- Embedding of `InvitationsService.respondToInvitation`: `NotFound` when no
invitation row exists for the pair (or the booking is missing),
`BadRequestError` when `booking.start_time <= now` (booking already
started or passed), otherwise write the decision and
`responded_at = now`. -/
def respondToInvitation (db : DB) (bookingId userId : Nat)
    (decision : Decision) (now : JSDate) : Except HttpErr Unit × DB :=
  if ¬ isUserInvited db bookingId userId then
    (Except.error HttpErr.notFound, db)
  else
    match findById db bookingId with
    | none => (Except.error HttpErr.notFound, db)
    | some booking =>
      if booking.start_time.ms ≤ now.ms then
        (Except.error HttpErr.badRequest, db)
      else
        let invs' :=
          repoUpdateStatus db.invitations bookingId userId
            decision.toStatus now
        (Except.ok (), { db with invitations := invs' })

/-- Epoch milliseconds of the wall-clock time `h:m` on day zero (UTC,
matching a zero timezone offset). -/
def hmMs (h m : Int) : Int :=
  (h * 60 + m) * 60000

/-- Whether a service call succeeded. -/
def isOkE {α : Type} : Except HttpErr α → Bool
  | Except.ok _ => true
  | Except.error _ => false

/-- The unique key of the `booking_invitations` table. -/
def pairMatch (bookingId userId : Nat) (i : InvitationRow) : Bool :=
  i.booking_id == bookingId && i.user_id == userId

/-- Conflict count as worded by the spec: stored bookings of the room
whose status is `pending` or `confirmed`, whose id differs from the
excluded id (when one is given), and whose interval overlaps the candidate
half-open interval (`existing.start < candidate.end` and
`existing.end > candidate.start`). -/
def specConflictCount (db : DB) (roomId : Nat) (candStart candEnd : JSDate)
    (excl : Option Nat) : Nat :=
  (db.bookings.filter (fun b => decide (
    b.room_id = roomId ∧
    (b.status = BStatus.pending ∨ b.status = BStatus.confirmed) ∧
    (∀ i, excl = some i → b.id ≠ i) ∧
    b.start_time.ms < candEnd.ms ∧ b.end_time.ms > candStart.ms))).length

/-- Evaluation of `getDurationMinutes` as Euclidean division (the divisor is positive,
so floor division and Euclidean division agree). -/
theorem getDurationMinutes_eq_ediv (s e : JSDate) :
    getDurationMinutes s e = (e.ms - s.ms) / 60000 :=
  Int.fdiv_eq_ediv _ (by norm_num)

/-- C4: `validateDuration` holds exactly when the end is strictly after
the start and the (floor) duration in minutes lies within [30, 240];
29-minute bookings are rejected, 30- and 240-minute bookings accepted,
241-minute bookings rejected. -/
theorem validateDuration_correct :
    (∀ s e : JSDate, validateDuration s e = true ↔
      s.ms < e.ms ∧ 30 ≤ getDurationMinutes s e ∧
        getDurationMinutes s e ≤ 240)
    ∧ validateDuration { ms := 0 } { ms := 29 * 60000 } = false
    ∧ validateDuration { ms := 0 } { ms := 30 * 60000 } = true
    ∧ validateDuration { ms := 0 } { ms := 240 * 60000 } = true
    ∧ validateDuration { ms := 0 } { ms := 241 * 60000 } = false := by
  refine ⟨fun s e => ?_, by decide, by decide, by decide, by decide⟩
  have hd : getDurationMinutes s e = (e.ms - s.ms) / 60000 :=
    getDurationMinutes_eq_ediv s e
  simp only [validateDuration, MIN_MINUTES, MAX_MINUTES, decide_eq_true_eq]
  constructor
  · rintro ⟨h1, h2⟩
    refine ⟨?_, h1, h2⟩
    rw [hd] at h1
    omega
  · rintro ⟨-, h1, h2⟩
    exact ⟨h1, h2⟩

/-- C3 counterexample: contrary to the claim, a booking ending at
17:00:01 is accepted by `validateBusinessHours` — the function reads only
the local hour and minute components, and 17:00:01 has hour 17 and
minute 0. -/
theorem validateBusinessHours_seconds_cex :
    validateBusinessHours 0 { ms := hmMs 16 0 } { ms := hmMs 17 0 + 1000 }
      = true := by
  decide

/-- C3 (amended): `validateBusinessHours` rejects a start of 08:59 and
accepts a start of 09:00 (same valid end); it accepts an end of exactly
17:00:00, accepts an end of 17:00:01 (seconds are ignored), and rejects an
end of 17:01:00; its verdict depends only on the local wall-clock hour of
the start and the local hour/minute of the end. -/
theorem validateBusinessHours_boundaries :
    validateBusinessHours 0 { ms := hmMs 8 59 } { ms := hmMs 10 0 } = false
    ∧ validateBusinessHours 0 { ms := hmMs 9 0 } { ms := hmMs 10 0 } = true
    ∧ validateBusinessHours 0 { ms := hmMs 16 0 } { ms := hmMs 17 0 } = true
    ∧ validateBusinessHours 0 { ms := hmMs 16 0 } { ms := hmMs 17 0 + 1000 }
        = true
    ∧ validateBusinessHours 0 { ms := hmMs 16 0 } { ms := hmMs 17 1 } = false
    ∧ (∀ tz s s' e e', getHours tz s = getHours tz s' →
        getHours tz e = getHours tz e' →
        getMinutes tz e = getMinutes tz e' →
        validateBusinessHours tz s e = validateBusinessHours tz s' e') := by
  refine ⟨by decide, by decide, by decide, by decide, by decide, ?_⟩
  intro tz s s' e e' h1 h2 h3
  simp only [validateBusinessHours, h1, h2, h3]

/-- C3 witness: the hour/minute-invariance part applied at concrete
instants (09:30–10:30 versus 09:45–10:30:01, equal components). -/
theorem validateBusinessHours_boundaries_witness :
    validateBusinessHours 0 { ms := hmMs 9 30 } { ms := hmMs 10 30 } =
      validateBusinessHours 0 { ms := hmMs 9 45 } { ms := hmMs 10 30 + 1000 }
    :=
  validateBusinessHours_boundaries.2.2.2.2.2 0 { ms := hmMs 9 30 }
    { ms := hmMs 9 45 } { ms := hmMs 10 30 } { ms := hmMs 10 30 + 1000 }
    (by decide) (by decide) (by decide)

/-- C5: cancelling a booking that is already `cancelled` succeeds and
leaves the whole database state (every stored field of every booking)
unchanged. -/
theorem cancelBooking_idem (db : DB) (bookingId : Nat) (b : BookingRow)
    (hfind : findById db bookingId = some b)
    (hst : b.status = BStatus.cancelled) :
    cancelBooking db bookingId = (Except.ok (), db) := by
  simp [cancelBooking, hfind, hst]

/-- A database holding one already-cancelled booking. -/
def sampleCancelledRow : BookingRow :=
  { id := 1, room_id := 1, user_id := 1, title := "standup",
    description := none, start_time := { ms := hmMs 10 0 },
    end_time := { ms := hmMs 11 0 }, status := BStatus.cancelled }

/-- A database holding one already-cancelled booking. -/
def sampleCancelledDB : DB :=
  { bookings := [sampleCancelledRow], invitations := [], rooms := [1],
    users := [1], nextBookingId := 2 }

/-- C5 witness: cancelling the cancelled booking of `sampleCancelledDB`
is a no-op success. -/
theorem cancelBooking_idem_witness :
    cancelBooking sampleCancelledDB 1 = (Except.ok (), sampleCancelledDB) :=
  cancelBooking_idem sampleCancelledDB 1 sampleCancelledRow (by decide)
    (by decide)

/-- An empty one-room, one-user database for the creation scenario. -/
def scenarioDB : DB :=
  { bookings := [], invitations := [], rooms := [1], users := [1],
    nextBookingId := 1 }

/-- Booking A of the scenario: room 1, 10:00–11:00. -/
def bookA : CreateBookingInput :=
  { room_id := 1, user_id := 1, title := "A", description := none,
    start_time := { ms := hmMs 10 0 }, end_time := { ms := hmMs 11 0 } }

/-- Booking B of the scenario: room 1, 10:30–11:30 (overlaps A). -/
def bookB : CreateBookingInput :=
  { room_id := 1, user_id := 1, title := "B", description := none,
    start_time := { ms := hmMs 10 30 }, end_time := { ms := hmMs 11 30 } }

/-- Booking C of the scenario: room 1, 11:00–12:00 (touches A's end). -/
def bookC : CreateBookingInput :=
  { room_id := 1, user_id := 1, title := "C", description := none,
    start_time := { ms := hmMs 11 0 }, end_time := { ms := hmMs 12 0 } }

/-- The scenario database after booking A has been created. -/
def scenarioAfterA : DB :=
  (createBooking 0 scenarioDB bookA).2

/-- C1: `findOverlapping` counts exactly the bookings that the spec calls
conflicts (same room, status `pending` or `confirmed`, id different from
the exclusion, half-open overlap), and in the concrete scenario creating
10:00–11:00 succeeds, creating 10:30–11:30 next to it fails with
`Conflict` leaving the state untouched, while creating the
boundary-touching 11:00–12:00 succeeds. -/
theorem findOverlapping_conflict_resolver :
    (∀ db roomId s e excl, findOverlapping db roomId s e excl =
      specConflictCount db roomId s e excl)
    ∧ isOkE (createBooking 0 scenarioDB bookA).1 = true
    ∧ createBooking 0 scenarioAfterA bookB =
        (Except.error HttpErr.conflict, scenarioAfterA)
    ∧ isOkE (createBooking 0 scenarioAfterA bookC).1 = true := by
  refine ⟨?_, by decide, by rfl, by decide⟩
  intro db roomId s e excl
  have hb : ∀ (x y : Bool), (x = true ↔ y = true) → x = y := by decide
  simp only [findOverlapping, specConflictCount]
  congr 1
  apply List.filter_congr
  intro b _
  apply hb
  rcases excl with _ | i <;>
    · simp only [Bool.and_eq_true, beq_iff_eq, Bool.or_eq_true,
        decide_eq_true_eq, bne_iff_ne, Option.some.injEq, forall_eq',
        reduceCtorEq, false_implies, forall_const, ne_eq]
      tauto

/-- C2: updating booking A to a time range that overlaps another active
booking B of the same room fails with `Conflict`, and the database —
including every stored field of A — is returned completely unchanged. -/
theorem updateBooking_conflict_unchanged
    (tz : Int) (db : DB) (A B : BookingRow) (data : UpdateBookingInput)
    (s e : JSDate)
    (hA : findById db A.id = some A)
    (hB : B ∈ db.bookings)
    (hne : B.id ≠ A.id)
    (hroom : B.room_id = A.room_id)
    (hBst : B.status = BStatus.pending ∨ B.status = BStatus.confirmed)
    (hAst : A.status = BStatus.pending ∨ A.status = BStatus.confirmed)
    (hdataRoom : data.room_id = none)
    (hds : data.start_time = some s)
    (hde : data.end_time = some e)
    (hvalid : validateBookingTimes tz s e = none)
    (hov1 : B.start_time.ms < e.ms)
    (hov2 : s.ms < B.end_time.ms) :
    updateBooking tz db A.id data = (Except.error HttpErr.conflict, db) := by
  have hAc : ¬ A.status = BStatus.cancelled := by
    rcases hAst with h | h <;> simp [h]
  have hpos : 0 < findOverlapping db A.room_id s e (some A.id) := by
    have hmem : B ∈ db.bookings.filter (fun b =>
        b.room_id == A.room_id &&
        (b.status == BStatus.confirmed || b.status == BStatus.pending) &&
        b.start_time.ms < e.ms &&
        b.end_time.ms > s.ms &&
        (match some A.id with
         | some i => b.id != i
         | none => true)) := by
      refine List.mem_filter.mpr ⟨hB, ?_⟩
      rcases hBst with h | h <;>
        simp [h, hroom, hne, hov1, hov2]
    exact List.length_pos_of_mem hmem
  simp [updateBooking, hA, hAc, hdataRoom, hds, hde, hvalid, hpos]

/-- Stored booking A for the update-into-conflict witness. -/
def sampleUpdA : BookingRow :=
  { id := 1, room_id := 1, user_id := 1, title := "A", description := none,
    start_time := { ms := hmMs 10 0 }, end_time := { ms := hmMs 11 0 },
    status := BStatus.confirmed }

/-- Stored booking B for the update-into-conflict witness. -/
def sampleUpdB : BookingRow :=
  { id := 2, room_id := 1, user_id := 1, title := "B", description := none,
    start_time := { ms := hmMs 12 0 }, end_time := { ms := hmMs 13 0 },
    status := BStatus.confirmed }

/-- Database holding bookings A and B in the same room. -/
def sampleUpdDB : DB :=
  { bookings := [sampleUpdA, sampleUpdB], invitations := [], rooms := [1],
    users := [1], nextBookingId := 3 }

/-- The update input moving A to 12:30–13:30, overlapping B. -/
def sampleUpdData : UpdateBookingInput :=
  { start_time := some { ms := hmMs 12 30 },
    end_time := some { ms := hmMs 13 30 } }

/-- C2 witness: moving A onto 12:30–13:30 collides with B (12:00–13:00)
and returns `Conflict` with the state unchanged. -/
theorem updateBooking_conflict_unchanged_witness :
    updateBooking 0 sampleUpdDB 1 sampleUpdData =
      (Except.error HttpErr.conflict, sampleUpdDB) :=
  updateBooking_conflict_unchanged 0 sampleUpdDB sampleUpdA sampleUpdB
    sampleUpdData { ms := hmMs 12 30 } { ms := hmMs 13 30 }
    (by decide) (by decide) (by decide) (by decide) (Or.inr (by decide))
    (Or.inr (by decide)) (by decide) (by decide) (by decide) (by decide)
    (by decide) (by decide)

/-- C7: responding to an invitation fails with `NotFound` when no row
exists for the pair, fails with `BadRequestError` leaving the state
unchanged when the booking's start is not strictly in the future, and for
any call time strictly before the start it succeeds, writing the decision
and `responded_at = now` on the pair's row while leaving all other rows
untouched. -/
theorem respondToInvitation_rules :
    (∀ db bid uid dec now, isUserInvited db bid uid = false →
      respondToInvitation db bid uid dec now =
        (Except.error HttpErr.notFound, db))
    ∧ (∀ db bid uid dec now b, isUserInvited db bid uid = true →
      findById db bid = some b → b.start_time.ms ≤ now.ms →
      respondToInvitation db bid uid dec now =
        (Except.error HttpErr.badRequest, db))
    ∧ (∀ db bid uid dec now b, isUserInvited db bid uid = true →
      findById db bid = some b → now.ms < b.start_time.ms →
      (respondToInvitation db bid uid dec now).1 = Except.ok () ∧
      (respondToInvitation db bid uid dec now).2.bookings = db.bookings ∧
      ∀ i ∈ (respondToInvitation db bid uid dec now).2.invitations,
        (pairMatch bid uid i = true →
          i.status = dec.toStatus ∧ i.responded_at = some now)
        ∧ (pairMatch bid uid i = false → i ∈ db.invitations)) := by
  refine ⟨?_, ?_, ?_⟩
  · intro db bid uid dec now h
    simp [respondToInvitation, h]
  · intro db bid uid dec now b h1 h2 h3
    simp [respondToInvitation, h1, h2, h3]
  · intro db bid uid dec now b h1 h2 h3
    have hn : ¬ b.start_time.ms ≤ now.ms := not_le.mpr h3
    set invs' := repoUpdateStatus db.invitations bid uid dec.toStatus now
      with hinvs
    have heq : respondToInvitation db bid uid dec now =
        (Except.ok (), { db with invitations := invs' }) := by
      simp [respondToInvitation, h1, h2, hn, hinvs]
    refine ⟨by rw [heq], by rw [heq], ?_⟩
    rw [heq]
    intro i hi
    rw [hinvs] at hi
    simp only [repoUpdateStatus, List.mem_map] at hi
    obtain ⟨j, hj, rfl⟩ := hi
    by_cases hp : (j.booking_id == bid && j.user_id == uid) = true
    · rw [if_pos hp]
      have hpm : pairMatch bid uid
          { j with status := dec.toStatus, responded_at := some now }
            = true := by
        simpa [pairMatch] using hp
      exact ⟨fun _ => ⟨rfl, rfl⟩, fun hc => absurd hpm (by simp [hc])⟩
    · rw [if_neg hp]
      have hpm : pairMatch bid uid j = false := by
        simpa [pairMatch] using hp
      exact ⟨fun hc => absurd hc (by simp [hpm]), fun _ => hj⟩

/-- A confirmed booking at 10:00–11:00 used by the invitation samples. -/
def sampleInvBooking : BookingRow :=
  { id := 1, room_id := 1, user_id := 1, title := "sync",
    description := none, start_time := { ms := hmMs 10 0 },
    end_time := { ms := hmMs 11 0 }, status := BStatus.confirmed }

/-- A pending invitation of user 2 to `sampleInvBooking`. -/
def sampleInvRow : InvitationRow :=
  { booking_id := 1, user_id := 2, status := InvStatus.pending,
    invited_at := { ms := 0 }, responded_at := none }

/-- Database with one booking owned by user 1 and a pending invitation
for user 2. -/
def sampleInvDB : DB :=
  { bookings := [sampleInvBooking], invitations := [sampleInvRow],
    rooms := [1], users := [1, 2], nextBookingId := 2 }

/-- C7 witness: user 2 accepting one second before the 10:00 start
succeeds, and the stored row carries the decision and response time. -/
theorem respondToInvitation_rules_witness :
    (respondToInvitation sampleInvDB 1 2 Decision.accepted
      { ms := hmMs 10 0 - 1000 }).1 = Except.ok () ∧
    ∀ i ∈ (respondToInvitation sampleInvDB 1 2 Decision.accepted
        { ms := hmMs 10 0 - 1000 }).2.invitations,
      (pairMatch 1 2 i = true →
        i.status = Decision.accepted.toStatus ∧
        i.responded_at = some { ms := hmMs 10 0 - 1000 })
      ∧ (pairMatch 1 2 i = false → i ∈ sampleInvDB.invitations) :=
  ⟨(respondToInvitation_rules.2.2 sampleInvDB 1 2 Decision.accepted
      { ms := hmMs 10 0 - 1000 } sampleInvBooking (by decide) (by decide)
      (by decide)).1,
   (respondToInvitation_rules.2.2 sampleInvDB 1 2 Decision.accepted
      { ms := hmMs 10 0 - 1000 } sampleInvBooking (by decide) (by decide)
      (by decide)).2.2⟩

/-- A pending invitation on a booking starting exactly at the reading
instant, for the display-status boundary. -/
def boundaryInvDB : DB := sampleInvDB

/-- C8 counterexample: at a reading instant exactly equal to the
booking's start (so the start is not in the past), the pending
invitation is displayed `expired` rather than with its stored status. -/
theorem getInvitees_expired_cex :
    ¬ sampleInvBooking.start_time.ms < hmMs 10 0
    ∧ (getInviteesByBooking boundaryInvDB 1 { ms := hmMs 10 0 }).map
        (fun r => (r.status, r.display_status)) =
      [(InvStatus.pending, DisplayStatus.expired)] := by
  decide

/-- C8 (amended): every row listed for a booking corresponds to a stored
invitation row whose persisted status it carries unchanged; its display
status is `expired` exactly when the stored status is `pending` and the
booking's start instant is not strictly in the future (start ≤ now), and
in every other case the display status equals the stored status.  The
stored status domain (`InvStatus`) has no `expired` value, so expiry is
never persisted. -/
theorem getInvitees_display_status
    (db : DB) (bid : Nat) (now : JSDate) (r : InvitationWithUser)
    (hr : r ∈ getInviteesByBooking db bid now) :
    (∃ i ∈ db.invitations, i.booking_id = bid ∧ i.user_id = r.user_id ∧
      i.status = r.status)
    ∧ (r.display_status = DisplayStatus.expired ↔
        r.status = InvStatus.pending ∧ r.start_time.ms ≤ now.ms)
    ∧ (¬ (r.status = InvStatus.pending ∧ r.start_time.ms ≤ now.ms) →
        r.display_status = r.status.display) := by
  simp only [getInviteesByBooking, List.mem_filterMap, List.mem_filter]
    at hr
  obtain ⟨i, ⟨hiMem, hiBid⟩, hmap⟩ := hr
  by_cases hu : db.users.contains i.user_id
  · rw [if_pos hu] at hmap
    obtain ⟨b, hfind, hb⟩ := Option.map_eq_some'.mp hmap
    subst hb
    dsimp only
    refine ⟨⟨i, hiMem, by simpa using hiBid, rfl, rfl⟩, ?_, ?_⟩
    · by_cases hc : b.start_time.ms ≤ now.ms ∧ i.status = InvStatus.pending
      · rw [if_pos hc]
        simp [hc.1, hc.2]
      · rw [if_neg hc]
        simp only [not_and] at hc
        constructor
        · intro hd
          exact absurd hd (by cases i.status <;> simp [InvStatus.display])
        · intro hpe
          exact absurd hpe.1 (hc hpe.2)
    · intro hnc
      rw [if_neg (by tauto)]
  · rw [if_neg hu] at hmap
    exact absurd hmap (by simp)

/-- The row listed for user 2's pending invitation once the booking's
start lies in the past. -/
def expiredDisplayRow : InvitationWithUser :=
  { booking_id := 1, user_id := 2, status := InvStatus.pending,
    invited_at := { ms := 0 }, responded_at := none,
    start_time := { ms := hmMs 10 0 },
    display_status := DisplayStatus.expired }

/-- C8 witness: reading `sampleInvDB` at 11:00 — an hour after the
booking's start — lists the pending invitation with display status
`expired` while its stored status is still `pending`. -/
theorem getInvitees_display_status_witness :
    (∃ i ∈ sampleInvDB.invitations, i.booking_id = 1 ∧
      i.user_id = expiredDisplayRow.user_id ∧
      i.status = expiredDisplayRow.status)
    ∧ (expiredDisplayRow.display_status = DisplayStatus.expired ↔
        expiredDisplayRow.status = InvStatus.pending ∧
        expiredDisplayRow.start_time.ms ≤
          (JSDate.mk (hmMs 11 0)).ms)
    ∧ (¬ (expiredDisplayRow.status = InvStatus.pending ∧
          expiredDisplayRow.start_time.ms ≤ (JSDate.mk (hmMs 11 0)).ms) →
        expiredDisplayRow.display_status = expiredDisplayRow.status.display)
    :=
  getInvitees_display_status sampleInvDB 1 (JSDate.mk (hmMs 11 0))
    expiredDisplayRow (by decide)

/-- A cancelled booking owned by user 1 with no invitations. -/
def sampleOwnedRow : BookingRow :=
  { id := 1, room_id := 1, user_id := 1, title := "retro",
    description := none, start_time := { ms := hmMs 9 0 },
    end_time := { ms := hmMs 10 0 }, status := BStatus.cancelled }

/-- Database holding only `sampleOwnedRow`. -/
def sampleOwnedDB : DB :=
  { bookings := [sampleOwnedRow], invitations := [], rooms := [1],
    users := [1], nextBookingId := 2 }

/-- C9 counterexample: querying user 1's bookings with status filter
`confirmed` still returns the cancelled booking user 1 owns — the filter
is not applied to owned bookings, contradicting the claimed uniform
filtering. -/
theorem findByUserId_filter_cex :
    findByUserId sampleOwnedDB 1 (some BStatus.confirmed) =
      [sampleOwnedRow]
    ∧ sampleOwnedRow.status ≠ BStatus.confirmed := by
  constructor
  · rfl
  · decide

/-- C9 (amended): with a status filter, `findByUserId` returns exactly
the stored bookings (of existing rooms) that the user owns — regardless
of their status — together with the bookings the user is invited to whose
status equals the filter: by SQL operator precedence the appended
`AND b.status = ?` binds only to the invitee disjunct of
`b.user_id = ? OR bi.user_id = ?`. -/
theorem findByUserId_members (db : DB) (uid : Nat) (st : BStatus)
    (b : BookingRow) :
    b ∈ findByUserId db uid (some st) ↔
      b ∈ db.bookings ∧ db.rooms.contains b.room_id = true ∧
      (b.user_id = uid ∨
        ∃ i ∈ db.invitations, i.booking_id = b.id ∧ i.user_id = uid ∧
          b.status = st) := by
  simp only [findByUserId, List.mem_filter, Bool.and_eq_true,
    Bool.or_eq_true, beq_iff_eq, List.any_eq_true]
  tauto

/-- Filtering commutes away a map whose function fixes every element the
filter keeps and never changes the filter's verdict. -/
theorem filter_map_fix {α : Type} (l : List α) (f : α → α) (p : α → Bool)
    (h1 : ∀ a, p (f a) = p a) (h2 : ∀ a, p a = true → f a = a) :
    (l.map f).filter p = l.filter p := by
  induction l with
  | nil => rfl
  | cons a l ih =>
    by_cases hp : p a = true
    · simp only [List.map_cons, List.filter_cons, h1, hp, if_pos, ih,
        h2 a hp]
    · have hp' : p a = false := by simpa using hp
      simp only [List.map_cons, List.filter_cons, h1, hp', ih]
      simp

/-- Filtering commutes with a map that never changes the filter's
verdict. -/
theorem filter_map_comm {α : Type} (l : List α) (f : α → α) (p : α → Bool)
    (h1 : ∀ a, p (f a) = p a) :
    (l.map f).filter p = (l.filter p).map f := by
  rw [List.filter_map]
  congr 1
  apply List.filter_congr
  intro a _
  exact h1 a

/-- Upserting a different user's invitation leaves the rows of the
`(bookingId, uid)` pair untouched. -/
theorem upsertInvitee_other (invs : List InvitationRow)
    (bid uid uid' : Nat) (now : JSDate) (hne : uid' ≠ uid) :
    (upsertInvitee invs bid uid' now).filter (pairMatch bid uid) =
      invs.filter (pairMatch bid uid) := by
  unfold upsertInvitee
  split
  · apply filter_map_fix
    · intro a
      by_cases h : (a.booking_id == bid && a.user_id == uid') = true
      · rw [if_pos h]
        simp [pairMatch]
      · rw [if_neg h]
    · intro a ha
      have hu : a.user_id = uid := by
        simp [pairMatch] at ha
        exact ha.2
      have : ¬ (a.booking_id == bid && a.user_id == uid') = true := by
        simp [hu]
        intro _
        exact fun h => hne h.symm
      rw [if_neg this]
  · rw [List.filter_append]
    have : pairMatch bid uid
        { booking_id := bid, user_id := uid', status := InvStatus.pending,
          invited_at := now, responded_at := none } = false := by
      simp [pairMatch, hne]
    simp [this]

/-- Upserting a pair with no existing row appends exactly one fresh
pending row for it. -/
theorem upsertInvitee_fresh (invs : List InvitationRow) (bid uid : Nat)
    (now : JSDate)
    (h : invs.filter (pairMatch bid uid) = []) :
    (upsertInvitee invs bid uid now).filter (pairMatch bid uid) =
      [{ booking_id := bid, user_id := uid, status := InvStatus.pending,
         invited_at := now, responded_at := none }] := by
  have hany : invs.any (fun i =>
      i.booking_id == bid && i.user_id == uid) = false := by
    rw [List.any_eq_false]
    intro i hi
    have := List.filter_eq_nil_iff.mp h i hi
    simpa [pairMatch] using this
  unfold upsertInvitee
  rw [if_neg (by simp [hany])]
  rw [List.filter_append, h]
  simp [pairMatch]

/-- Upserting a pair that already has exactly one row rewrites that row in
place: status reset to `pending`, `invited_at` refreshed, `responded_at`
kept, and no duplicate created. -/
theorem upsertInvitee_existing (invs : List InvitationRow) (bid uid : Nat)
    (now : JSDate) (i0 : InvitationRow)
    (h : invs.filter (pairMatch bid uid) = [i0]) :
    (upsertInvitee invs bid uid now).filter (pairMatch bid uid) =
      [{ booking_id := bid, user_id := uid, status := InvStatus.pending,
         invited_at := now, responded_at := i0.responded_at }] := by
  have hmem : i0 ∈ invs.filter (pairMatch bid uid) := by
    rw [h]; exact List.mem_singleton.mpr rfl
  have hp0 : pairMatch bid uid i0 = true := (List.mem_filter.mp hmem).2
  have hany : invs.any (fun i =>
      i.booking_id == bid && i.user_id == uid) = true := by
    rw [List.any_eq_true]
    exact ⟨i0, (List.mem_filter.mp hmem).1, by simpa [pairMatch] using hp0⟩
  unfold upsertInvitee
  rw [if_pos (by simpa using hany)]
  rw [filter_map_comm]
  · rw [h]
    simp only [List.map_cons, List.map_nil]
    have hpair := hp0
    simp only [pairMatch, Bool.and_eq_true, beq_iff_eq] at hpair
    rw [if_pos (by simp [hpair.1, hpair.2])]
    obtain ⟨b0, u0, s0, ia0, ra0⟩ := i0
    simp only at hpair
    simp [hpair.1, hpair.2]
  · intro a
    by_cases hc : (a.booking_id == bid && a.user_id == uid) = true
    · rw [if_pos hc]
      simp [pairMatch]
    · rw [if_neg hc]

/-- The bulk upsert leaves the rows of any pair whose user id is not in
the processed list untouched. -/
theorem repoAddInvitees_not_mem (uids : List Nat)
    (invs : List InvitationRow) (bid uid : Nat) (now : JSDate)
    (h : uid ∉ uids) :
    (repoAddInvitees invs bid uids now).filter (pairMatch bid uid) =
      invs.filter (pairMatch bid uid) := by
  induction uids generalizing invs with
  | nil => rfl
  | cons u us ih =>
    have h1 : u ≠ uid := fun he => h (he ▸ List.mem_cons_self u us)
    have h2 : uid ∉ us := fun hm => h (List.mem_cons_of_mem u hm)
    calc (repoAddInvitees (upsertInvitee invs bid u now) bid us now).filter
          (pairMatch bid uid)
        = (upsertInvitee invs bid u now).filter (pairMatch bid uid) :=
          ih _ h2
      _ = invs.filter (pairMatch bid uid) :=
          upsertInvitee_other invs bid uid u now h1

/-- After the bulk upsert, every processed user id has exactly one row for
the booking, with status `pending` and `invited_at` refreshed — an
existing row is rewritten (keeping its `responded_at`) rather than
duplicated — provided the pair was unique (or absent) beforehand. -/
theorem repoAddInvitees_mem (uids : List Nat) (invs : List InvitationRow)
    (bid uid : Nat) (now : JSDate) (hmem : uid ∈ uids)
    (huniq : (invs.filter (pairMatch bid uid)).length ≤ 1) :
    ∃ resp, (repoAddInvitees invs bid uids now).filter (pairMatch bid uid)
      = [{ booking_id := bid, user_id := uid, status := InvStatus.pending,
           invited_at := now, responded_at := resp }] := by
  induction uids generalizing invs with
  | nil => exact absurd hmem (List.not_mem_nil uid)
  | cons u us ih =>
    by_cases hu : u = uid
    · subst hu
      have hone : ∃ resp,
          (upsertInvitee invs bid u now).filter (pairMatch bid u) =
          [{ booking_id := bid, user_id := u, status := InvStatus.pending,
             invited_at := now, responded_at := resp }] := by
        rcases hf : invs.filter (pairMatch bid u) with _ | ⟨i0, rest⟩
        · exact ⟨none, upsertInvitee_fresh invs bid u now hf⟩
        · rcases rest with _ | ⟨i1, rest'⟩
          · exact ⟨i0.responded_at, upsertInvitee_existing invs bid u now
              i0 hf⟩
          · rw [hf] at huniq
            simp at huniq
      obtain ⟨resp, hres⟩ := hone
      by_cases hus : u ∈ us
      · exact ih _ hus (by rw [hres]; simp)
      · refine ⟨resp, ?_⟩
        calc (repoAddInvitees (upsertInvitee invs bid u now) bid us
              now).filter (pairMatch bid u)
            = (upsertInvitee invs bid u now).filter (pairMatch bid u) :=
              repoAddInvitees_not_mem us _ bid u now hus
          _ = _ := hres
    · have hmem' : uid ∈ us := by
        rcases List.mem_cons.mp hmem with h | h
        · exact absurd h.symm hu
        · exact h
      have hpres := upsertInvitee_other invs bid uid u now hu
      exact ih _ hmem' (by rw [hpres]; exact huniq)

/-- C6: inviting users (a) fails with `Forbidden` when the requester is
not the booking's owner, leaving the state unchanged; (b) the surviving
invitee set is exactly the given ids minus the requester's own id and ids
not resolving to existing users; (c) when no id survives it fails with
`InvalidInput` (`BadRequestError`), state unchanged; (d) on success each
survivor ends with exactly one invitation row for the booking — an
existing `(booking, user)` row is reset to `pending` with `invited_at`
refreshed rather than duplicated — and pairs of unprocessed users are
untouched. -/
theorem addInvitees_spec :
    (∀ db bid uids req now b, findById db bid = some b →
      b.user_id ≠ req →
      addInvitees db bid uids req now = (Except.error HttpErr.forbidden, db))
    ∧ (∀ db req uids uid, uid ∈ survivingInvitees db req uids ↔
        uid ∈ uids ∧ uid ≠ req ∧ db.users.contains uid = true)
    ∧ (∀ db bid uids req now b, findById db bid = some b →
        b.user_id = req → survivingInvitees db req uids = [] →
        addInvitees db bid uids req now =
          (Except.error HttpErr.badRequest, db))
    ∧ (∀ db bid uids req now b, findById db bid = some b →
        b.user_id = req → survivingInvitees db req uids ≠ [] →
        isOkE (addInvitees db bid uids req now).1 = true
        ∧ (addInvitees db bid uids req now).2.bookings = db.bookings
        ∧ (∀ uid, uid ∈ survivingInvitees db req uids →
            (db.invitations.filter (pairMatch bid uid)).length ≤ 1 →
            ∃ resp,
              ((addInvitees db bid uids req now).2.invitations).filter
                  (pairMatch bid uid) =
                [{ booking_id := bid, user_id := uid,
                   status := InvStatus.pending, invited_at := now,
                   responded_at := resp }])
        ∧ (∀ uid, uid ∉ survivingInvitees db req uids →
            ((addInvitees db bid uids req now).2.invitations).filter
                (pairMatch bid uid) =
              db.invitations.filter (pairMatch bid uid))) := by
  refine ⟨?_, ?_, ?_, ?_⟩
  · intro db bid uids req now b hb hne
    simp [addInvitees, hb, hne]
  · intro db req uids uid
    simp [survivingInvitees, List.mem_filter]
  · intro db bid uids req now b hb howner hempty
    simp [addInvitees, hb, howner, hempty]
  · intro db bid uids req now b hb howner hne
    have hne' : (survivingInvitees db req uids).isEmpty = false := by
      rcases hs : survivingInvitees db req uids with _ | _
      · exact absurd hs hne
      · rfl
    have heq : addInvitees db bid uids req now =
        (Except.ok (getInviteesByBooking
            (DB.mk db.bookings
              (repoAddInvitees db.invitations bid
                (survivingInvitees db req uids) now)
              db.rooms db.users db.nextBookingId) bid now),
         DB.mk db.bookings
           (repoAddInvitees db.invitations bid
             (survivingInvitees db req uids) now)
           db.rooms db.users db.nextBookingId) := by
      simp [addInvitees, hb, howner, hne']
    rw [heq]
    refine ⟨rfl, rfl, ?_, ?_⟩
    · intro uid hmem huniq
      exact repoAddInvitees_mem _ _ bid uid now hmem huniq
    · intro uid hmem
      exact repoAddInvitees_not_mem _ _ bid uid now hmem

/-- A previously-declined invitation of user 2, for the re-invite
witness. -/
def reinviteRow : InvitationRow :=
  { booking_id := 1, user_id := 2, status := InvStatus.declined,
    invited_at := { ms := 0 }, responded_at := some { ms := 500 } }

/-- Database where user 2 has declined the invitation to booking 1. -/
def reinviteDB : DB :=
  { bookings := [sampleInvBooking], invitations := [reinviteRow],
    rooms := [1], users := [1, 2], nextBookingId := 2 }

/-- C6 witness: the owner re-inviting `[1, 2, 99]` (self and an unknown
id are dropped) succeeds, and user 2's declined row is reset to a single
pending row with the new `invited_at`. -/
theorem addInvitees_spec_witness :
    isOkE (addInvitees reinviteDB 1 [1, 2, 99] 1 { ms := 1000 }).1 = true
    ∧ ∃ resp,
      ((addInvitees reinviteDB 1 [1, 2, 99] 1
          { ms := 1000 }).2.invitations).filter (pairMatch 1 2) =
        [{ booking_id := 1, user_id := 2, status := InvStatus.pending,
           invited_at := { ms := 1000 }, responded_at := resp }] :=
  ⟨(addInvitees_spec.2.2.2 reinviteDB 1 [1, 2, 99] 1 { ms := 1000 }
      sampleInvBooking (by decide) (by decide) (by decide)).1,
   (addInvitees_spec.2.2.2 reinviteDB 1 [1, 2, 99] 1 { ms := 1000 }
      sampleInvBooking (by decide) (by decide) (by decide)).2.2.1 2
     (by decide) (by decide)⟩

/-- Overwrite one booking's status, leaving everything else in the
database unchanged (used to show invitation operations never consult the
parent booking's status). -/
def setBookingStatus (db : DB) (bookingId : Nat) (st : BStatus) : DB :=
  { db with bookings := db.bookings.map (fun b =>
      if b.id == bookingId then { b with status := st } else b) }

/-- Lookup `findById` after a status override returns the same row up to the
override. -/
theorem findById_setBookingStatus (db : DB) (i : Nat) (st : BStatus)
    (bid : Nat) :
    findById (setBookingStatus db i st) bid =
      (findById db bid).map (fun b =>
        if b.id == i then { b with status := st } else b) := by
  unfold findById setBookingStatus
  dsimp only
  rw [List.find?_map]
  have hpred : ((fun b : BookingRow => b.id == bid) ∘
      (fun b : BookingRow =>
        if b.id == i then { b with status := st } else b)) =
      (fun b : BookingRow => b.id == bid) := by
    funext b
    by_cases h : b.id = i
    · simp [h]
    · simp [h]
  rw [hpred]
  rcases hr : db.bookings.find? (fun b => b.id == bid) with _ | b
  · rw [hr]
    rfl
  · rw [hr]
    by_cases h : b.id = i <;> by_cases hro : b.room_id ∈ db.rooms <;>
      simp [Option.filter, Option.map, h, hro]

/-- Listing a booking's invitees is unaffected by any booking-status
override: the display overlay reads only the start instant. -/
theorem getInviteesByBooking_setBookingStatus (db : DB) (i : Nat)
    (st : BStatus) (bid : Nat) (now : JSDate) :
    getInviteesByBooking (setBookingStatus db i st) bid now =
      getInviteesByBooking db bid now := by
  unfold getInviteesByBooking setBookingStatus
  dsimp only
  congr 1
  funext i0
  by_cases hu : db.users.contains i0.user_id = true
  · rw [if_pos hu, if_pos hu]
    rw [List.find?_map]
    have hpred : ((fun b : BookingRow => b.id == i0.booking_id) ∘
        (fun b : BookingRow =>
          if b.id == i then { b with status := st } else b)) =
        (fun b : BookingRow => b.id == i0.booking_id) := by
      funext b
      by_cases h : b.id = i
      · simp [h]
      · simp [h]
    rw [hpred]
    rcases hr : db.bookings.find? (fun b => b.id == i0.booking_id)
      with _ | b
    · rw [hr]
      rfl
    · rw [hr]
      by_cases h : b.id = i <;> simp [Option.map, h]
  · rw [if_neg hu, if_neg hu]

/-- A status override leaves the invitations table unchanged. -/
theorem setBookingStatus_invitations (db : DB) (i : Nat) (st : BStatus) :
    (setBookingStatus db i st).invitations = db.invitations := rfl

/-- A status override leaves the rooms unchanged. -/
theorem setBookingStatus_rooms (db : DB) (i : Nat) (st : BStatus) :
    (setBookingStatus db i st).rooms = db.rooms := rfl

/-- A status override leaves the users unchanged. -/
theorem setBookingStatus_users (db : DB) (i : Nat) (st : BStatus) :
    (setBookingStatus db i st).users = db.users := rfl

/-- A status override leaves the id counter unchanged. -/
theorem setBookingStatus_nextBookingId (db : DB) (i : Nat) (st : BStatus) :
    (setBookingStatus db i st).nextBookingId = db.nextBookingId := rfl

/-- Replacing the invitations of a status-overridden database is the
status override of the replaced database. -/
theorem setBookingStatus_withInvitations (db : DB) (i : Nat) (st : BStatus)
    (x : List InvitationRow) :
    DB.mk (setBookingStatus db i st).bookings x db.rooms db.users
      db.nextBookingId =
    setBookingStatus (DB.mk db.bookings x db.rooms db.users db.nextBookingId)
      i st := rfl

/-- Listing invitees is unaffected by a booking-status override, stated
on the state shape produced inside `addInvitees`. -/
theorem getInvitees_override (db : DB) (i : Nat) (st : BStatus)
    (x : List InvitationRow) (bid : Nat) (now : JSDate) :
    getInviteesByBooking (DB.mk (setBookingStatus db i st).bookings x
        db.rooms db.users db.nextBookingId) bid now =
      getInviteesByBooking (DB.mk db.bookings x db.rooms db.users
        db.nextBookingId) bid now := by
  rw [setBookingStatus_withInvitations,
    getInviteesByBooking_setBookingStatus]

/-- C10: invitation operations never consult the parent booking's status:
overwriting any booking's status (e.g. to `cancelled`) changes neither the
outcome of `addInvitees` nor of `respondToInvitation` (their result state
differs only by the same override), and concretely both succeed on a
cancelled booking with a future start under the usual
existence/ownership/pair conditions. -/
theorem invitationOps_ignore_status :
    (∀ db i st bid uids req now,
      (addInvitees (setBookingStatus db i st) bid uids req now).1 =
        (addInvitees db bid uids req now).1 ∧
      (addInvitees (setBookingStatus db i st) bid uids req now).2 =
        setBookingStatus (addInvitees db bid uids req now).2 i st)
    ∧ (∀ db i st bid uid dec now,
      (respondToInvitation (setBookingStatus db i st) bid uid dec now).1 =
        (respondToInvitation db bid uid dec now).1 ∧
      (respondToInvitation (setBookingStatus db i st) bid uid dec now).2 =
        setBookingStatus (respondToInvitation db bid uid dec now).2 i st)
    ∧ (∀ db bid uids req now b, findById db bid = some b →
        b.status = BStatus.cancelled → b.user_id = req →
        now.ms < b.start_time.ms → survivingInvitees db req uids ≠ [] →
        isOkE (addInvitees db bid uids req now).1 = true)
    ∧ (∀ db bid uid dec now b, findById db bid = some b →
        b.status = BStatus.cancelled → isUserInvited db bid uid = true →
        now.ms < b.start_time.ms →
        isOkE (respondToInvitation db bid uid dec now).1 = true) := by
  have hsv : ∀ db i st req uids,
      survivingInvitees (setBookingStatus db i st) req uids =
        survivingInvitees db req uids := fun _ _ _ _ _ => rfl
  have hinv : ∀ db i st bid uid,
      isUserInvited (setBookingStatus db i st) bid uid =
        isUserInvited db bid uid := fun _ _ _ _ _ => rfl
  refine ⟨?_, ?_, ?_, ?_⟩
  · intro db i st bid uids req now
    rcases hb : findById db bid with _ | b
    · constructor <;> simp [addInvitees, findById_setBookingStatus, hb]
    · by_cases hid : b.id = i
      all_goals by_cases howner : b.user_id = req
      all_goals by_cases hempty : (survivingInvitees db req uids).isEmpty
      all_goals constructor
      all_goals
        simp [addInvitees, findById_setBookingStatus, hb, hsv, hid,
          howner, hempty, setBookingStatus_invitations,
          setBookingStatus_rooms, setBookingStatus_users,
          setBookingStatus_nextBookingId, getInvitees_override,
          setBookingStatus_withInvitations,
          getInviteesByBooking_setBookingStatus]
  · intro db i st bid uid dec now
    rcases hiu : isUserInvited db bid uid with _ | _
    · constructor <;> simp [respondToInvitation, hinv, hiu]
    · rcases hb : findById db bid with _ | b
      · constructor <;>
          simp [respondToInvitation, hinv, hiu, findById_setBookingStatus,
            hb]
      · by_cases hid : b.id = i
        all_goals by_cases hle : b.start_time.ms ≤ now.ms
        all_goals constructor
        all_goals
          simp [respondToInvitation, hinv, hiu, findById_setBookingStatus,
            hb, hid, hle, setBookingStatus_invitations,
            setBookingStatus_rooms, setBookingStatus_users,
            setBookingStatus_nextBookingId,
            setBookingStatus_withInvitations]
  · intro db bid uids req now b hb hc howner hfut hne
    have hne' : (survivingInvitees db req uids).isEmpty = false := by
      rcases hs : survivingInvitees db req uids with _ | _
      · exact absurd hs hne
      · rfl
    simp [addInvitees, hb, howner, hne', isOkE]
  · intro db bid uid dec now b hb hc hiu hfut
    have hn : ¬ b.start_time.ms ≤ now.ms := not_le.mpr hfut
    simp [respondToInvitation, hiu, hb, hn, isOkE]

/-- A cancelled booking whose start lies in the future. -/
def cancelledFutureBooking : BookingRow :=
  { id := 1, room_id := 1, user_id := 1, title := "offsite",
    description := none, start_time := { ms := hmMs 10 0 },
    end_time := { ms := hmMs 11 0 }, status := BStatus.cancelled }

/-- Pending invitation of user 2 to the cancelled future booking. -/
def cfInvRow : InvitationRow :=
  { booking_id := 1, user_id := 2, status := InvStatus.pending,
    invited_at := { ms := 0 }, responded_at := none }

/-- Database with the cancelled future booking and a pending invitation
for user 2. -/
def cancelledFutureDB : DB :=
  { bookings := [cancelledFutureBooking], invitations := [cfInvRow],
    rooms := [1], users := [1, 2], nextBookingId := 2 }

/-- C10 witness: on the cancelled future booking, the owner's invite of
user 2 succeeds and user 2's acceptance one second before start
succeeds. -/
theorem invitationOps_ignore_status_witness :
    isOkE (addInvitees cancelledFutureDB 1 [2] 1 { ms := 0 }).1 = true
    ∧ isOkE (respondToInvitation cancelledFutureDB 1 2 Decision.accepted
        { ms := hmMs 10 0 - 1000 }).1 = true :=
  ⟨invitationOps_ignore_status.2.2.1 cancelledFutureDB 1 [2] 1 { ms := 0 }
      cancelledFutureBooking (by decide) (by decide) (by decide)
      (by decide) (by decide),
   invitationOps_ignore_status.2.2.2 cancelledFutureDB 1 2
      Decision.accepted { ms := hmMs 10 0 - 1000 } cancelledFutureBooking
      (by decide) (by decide) (by decide) (by decide)⟩

end Booking
